import Mathlib

/-!
Verification of the live-playlist synchronization engine of the repository
(`m3u8-playlist-loader.js`): the segment reconciler (`updateSegments`,
`updateMaster`), the live window tracker (`updateMediaPlaylist_`), the
rendition selector (`enabledPlaylists`, `isLowestEnabledRendition_`) and the
loader entry points `haveMetadata`, `onPlaylistRequestError` and `media`.

Modelling conventions (value-level shallow embedding of the JavaScript):
* JS numbers are rationals; in positions where a value can be `undefined`
  (or where `NaN` can poison an arithmetic result) we use `Option ℚ` with
  `none` for the absent value.
* an absent object property is `Option.none`; `Object.assign(target, src)`
  copies every property present on `src` onto `target` and returns the
  (mutated) `target` — see `assignSeg` / `assignPlaylist`.
* a thrown JS exception is `Option.none` (or `Except.error`) at the
  function's result type.
* objects are modelled by value; where the source mutates an input list's
  elements in place, the post-call value of that list is returned as an
  explicit extra component (see `updateSegments`).
* `resolveURL` lives in `../utils/resolve-url`, outside the embedded file;
  the functions that use it are parameterised by an abstract resolver
  `resolve : Option String → Option String → String`.
-/

namespace M3U8

/-- Sub-object of a segment for `key` (decryption key) and `map`
(initialization segment): `{uri, resolvedUri}`. -/
structure SegKey where
  uri : Option String
  resolvedUri : Option String
  deriving DecidableEq

/-- A parsed media segment.  `startTime` / `endTime` model the source's
`start` / `end` properties (precise timing filled in by a downstream
demuxer); `duration` is `none` when the property is absent. -/
structure Segment where
  uri : Option String
  resolvedUri : Option String
  duration : Option ℚ
  key : Option SegKey
  map : Option SegKey
  startTime : Option ℚ
  endTime : Option ℚ
  deriving DecidableEq

/-- The segment object with no own properties. -/
def emptySegment : Segment :=
  { uri := none, resolvedUri := none, duration := none, key := none,
    map := none, startTime := none, endTime := none }

/-- Names of the properties a segment object can carry. -/
inductive SegField where
  | uri | resolvedUri | duration | key | map | startTime | endTime
  deriving DecidableEq

/-- Possible values of a segment property. -/
inductive SegVal where
  | str (s : String)
  | num (q : ℚ)
  | obj (k : SegKey)
  deriving DecidableEq

/-- Property access on a segment object, `none` when absent. -/
def Segment.getField (s : Segment) : SegField → Option SegVal
  | .uri => s.uri.map SegVal.str
  | .resolvedUri => s.resolvedUri.map SegVal.str
  | .duration => s.duration.map SegVal.num
  | .key => s.key.map SegVal.obj
  | .map => s.map.map SegVal.obj
  | .startTime => s.startTime.map SegVal.num
  | .endTime => s.endTime.map SegVal.num

/-- One property under `Object.assign` semantics: the source's value when
the property is present on the source, otherwise the target's. -/
def overlay {α : Type} (src tgt : Option α) : Option α :=
  match src with
  | some v => some v
  | none => tgt

/-- `Object.assign(target, source)` restricted to segment objects: every
property present on `source` overwrites the target's.  The copy is shallow —
`key` / `map` are copied as whole sub-objects.  In the source this MUTATES
`target` and returns it; the returned value models both. -/
def assignSeg (target source : Segment) : Segment :=
  { uri := overlay source.uri target.uri
    resolvedUri := overlay source.resolvedUri target.resolvedUri
    duration := overlay source.duration target.duration
    key := overlay source.key target.key
    map := overlay source.map target.map
    startTime := overlay source.startTime target.startTime
    endTime := overlay source.endTime target.endTime }

/-- JS array indexing `l[i]` with a possibly negative index: `undefined`
(`none`) outside `[0, l.length)`. -/
def jsGet (l : List Segment) (i : Int) : Option Segment :=
  if i < 0 then none else l[i.toNat]?

/-- Loop body of `updateSegments` (source lines 33–35), iterated `fuel`
times starting at loop counter `i = offset + k`:

  `result[i - offset] = Object.assign(original[i], result[i - offset]);`

`orig` carries the current value of the `original` list (its elements are
mutated in place by `Object.assign`), `res` the current value of `result`.
Each `result` slot is written exactly once, at iteration `i = k + offset`,
and is read (as the assign source) in the same statement before the write,
so the value read is the original `update[k]`.  When `original[i]` is
`undefined` (negative index), `Object.assign` throws a `TypeError`,
modelled by `none`. -/
def updateSegmentsGo (offset : Int) :
    Nat → Nat → List Segment → List Segment → Option (List Segment × List Segment)
  | 0, _, orig, res => some (res, orig)
  | fuel + 1, k, orig, res =>
    match jsGet orig (offset + k) with
    | none => none
    | some base =>
      let merged := assignSeg base (res.getD k emptySegment)
      updateSegmentsGo offset fuel (k + 1)
        (orig.set (offset + (k : Int)).toNat merged) (res.set k merged)

/-- `updateSegments(original, update, offset)` (source lines 25–37), the
segment reconciler.  `result = update.slice()`;
`length = Math.min(original.length, update.length + offset)`; then the loop
`for (i = offset; i < length; i++)`.  The `offset = offset || 0` guard is
the identity on the integer offsets modelled here.  Returns `none` when the
loop throws; otherwise `some (result, originalAfter)` where `result` is the
list the function returns and `originalAfter` is the post-call value of the
`original` list (whose overlapped elements `Object.assign` mutated in
place). -/
def updateSegments (original update : List Segment) (offset : Int) :
    Option (List Segment × List Segment) :=
  let len : Int := min (original.length : Int) ((update.length : Int) + offset)
  updateSegmentsGo offset (len - offset).toNat 0 original update

/-- Selection metadata of a rendition (only `BANDWIDTH` matters here). -/
structure PlaylistAttributes where
  BANDWIDTH : Option ℚ
  deriving DecidableEq

/-- A media-playlist entry of the master playlist.  A freshly parsed stub
has `segments = none`; a loaded rendition has `segments = some _`.
`excludeUntil` is a millisecond timestamp.  (A stub's `mediaSequence` is
behaviourally irrelevant: the no-op test requires `segments` to be present,
and `updateMaster` overwrites `mediaSequence` before using it, so it is
modelled as a plain integer.) -/
structure MediaPlaylist where
  uri : String
  resolvedUri : Option String
  attributes : Option PlaylistAttributes
  excludeUntil : Option Int
  endList : Bool
  targetDuration : Option ℚ
  mediaSequence : Int
  segments : Option (List Segment)
  deriving DecidableEq

/-- A parsed media manifest (`parser.manifest` with its `uri` set): always
carries `mediaSequence` and `segments`; `targetDuration` and `endList` only
when the corresponding tag was present. -/
structure MediaUpdate where
  uri : String
  mediaSequence : Int
  targetDuration : Option ℚ
  endList : Option Bool
  segments : List Segment
  deriving DecidableEq

/-- The master playlist: an ordered list of media-playlist refs.  The
source also registers every entry under its own `uri` as a keyed alias on
the same array (`master.playlists[playlist.uri] = playlist`); the alias
table is modelled by first-match lookup over the list (`lookupPlaylist`). -/
structure MasterPlaylist where
  uri : Option String
  playlists : List MediaPlaylist
  deriving DecidableEq

/-- `master.playlists[uri]` through the keyed alias table. -/
def lookupPlaylist (master : MasterPlaylist) (uri : String) : Option MediaPlaylist :=
  master.playlists.find? (fun p => p.uri == uri)

/-- `Object.assign(playlist, media)` (source line 71): the parsed media
manifest's own properties (`uri`, `mediaSequence`, `segments`, and
`targetDuration` / `endList` when present) overwrite the ref's;
`resolvedUri`, `attributes` and `excludeUntil` are never properties of a
parsed media manifest and survive.  Mutates `playlist` in place in the
source; modelled by the returned value. -/
def assignPlaylist (p : MediaPlaylist) (m : MediaUpdate) : MediaPlaylist :=
  { p with
    uri := m.uri
    mediaSequence := m.mediaSequence
    targetDuration := overlay m.targetDuration p.targetDuration
    endList := m.endList.getD p.endList
    segments := some m.segments }

/-- The body of the resolution loop (source lines 88–99): fills
`segment.resolvedUri`, `segment.key.resolvedUri` and
`segment.map.resolvedUri` against the ref's resolved base URI, skipping any
field already present.  (The source tests `!segment.resolvedUri`, which is
also true for an empty string; resolved URIs are modelled as present or
absent only.) -/
def resolveSegment (resolve : Option String → Option String → String)
    (base : Option String) (s : Segment) : Segment :=
  let s1 := if s.resolvedUri.isSome then s
            else { s with resolvedUri := some (resolve base s.uri) }
  let s2 := match s1.key with
    | some k =>
      if k.resolvedUri.isSome then s1
      else { s1 with key := some { k with resolvedUri := some (resolve base k.uri) } }
    | none => s1
  match s2.map with
  | some k =>
    if k.resolvedUri.isSome then s2
    else { s2 with map := some { k with resolvedUri := some (resolve base k.uri) } }
  | none => s2

/-- The source's no-op test (lines 64–67): the playlist is considered
unchanged iff the ref already has a `segments` array, the segment counts
are equal, and the media sequence numbers are equal.  (`media.segments` is
always an array on a parsed media manifest, and an array — even empty — is
truthy.) -/
def isNoOp (p : MediaPlaylist) (m : MediaUpdate) : Bool :=
  match p.segments with
  | some segs => segs.length == m.segments.length && p.mediaSequence == m.mediaSequence
  | none => false

/-- Update of the single matching ref inside `updateMaster` (source lines
71–99).  `Object.assign(playlist, media)` runs FIRST and mutates the ref in
place, so by the time `updateSegments` is called, `playlist.segments` is
already the update's own segment list and
`media.mediaSequence - playlist.mediaSequence` is already `0`; the merge
never sees the pre-update segments.  The resulting segment list is then
resolved against the ref's own `resolvedUri`. -/
def updateMasterRef (resolve : Option String → Option String → String)
    (p : MediaPlaylist) (m : MediaUpdate) : Option MediaPlaylist :=
  let pl := assignPlaylist p m
  match pl.segments with
  | none => some pl
  | some origSegs =>
    (updateSegments origSegs m.segments ((m.mediaSequence - pl.mediaSequence : Int))).map
      (fun r => { pl with segments := some ((r.1).map (resolveSegment resolve pl.resolvedUri)) })

/-- The `while (i--)` loop of `updateMaster` (source lines 59–102) over the
playlist list, returning the updated list together with the `changed` flag.
The loop runs from the last index down; each iteration only touches the
entry at its own index, so it is modelled by structural recursion. -/
def updateMasterGo (resolve : Option String → Option String → String)
    (media : MediaUpdate) : List MediaPlaylist → Option (List MediaPlaylist × Bool)
  | [] => some ([], false)
  | p :: rest => do
    let (rest', changed) ← updateMasterGo resolve media rest
    if p.uri = media.uri then
      if isNoOp p media then
        pure (p :: rest', changed)
      else do
        let p' ← updateMasterRef resolve p media
        pure (p' :: rest', true)
    else
      pure (p :: rest', changed)

/-- `updateMaster(master, media)` (source lines 51–104).  `Object.assign(
master, {})` aliases `master` itself, and refs are mutated in place; the
value returned here is the post-call master.  Outer `none` models a thrown
exception; `some none` models the `null` return ("no ref changed"). -/
def updateMaster (resolve : Option String → Option String → String)
    (master : MasterPlaylist) (media : MediaUpdate) : Option (Option MasterPlaylist) :=
  (updateMasterGo resolve media master.playlists).map
    (fun r => if r.2 then some { master with playlists := r.1 } else none)

/-! ## The loader -/

/-- Loader states (source uses string constants). -/
inductive LState where
  | HAVE_NOTHING | HAVE_MASTER | HAVE_METADATA | SWITCHING_MEDIA
  deriving DecidableEq

/-- An XHR / fetch handle as the loader observes it. -/
structure Xhr where
  url : String
  status : Option Int
  bandwidth : Option ℚ
  responseText : String
  deriving DecidableEq

/-- The `this.error` record built by `onPlaylistRequestError`. -/
structure ErrInfo where
  playlist : Option MediaPlaylist
  status : Option Int
  message : String
  responseText : String
  code : Int
  deriving DecidableEq

/-- The mutable state of `M3U8PlaylistLoader`.  `media` models `this._media`
(in JS an alias into `master.playlists`; here a value snapshot updated at
the source's assignment points), `xhr` models `this._xhr`,
`mediaUpdateTimeout` the armed refresh-timer delay (ms), and `expired`
models `this.expired_` with `none` for a `NaN`-poisoned total.
`trackExpiredTime` models `this.trackExpiredTime_` (set by external
callers; absent/falsy until then). -/
structure Loader where
  state : LState
  master : Option MasterPlaylist
  media : Option MediaPlaylist
  xhr : Option Xhr
  bandwidth : Option ℚ
  expired : Option ℚ
  trackExpiredTime : Bool
  refreshDelay : Option ℚ
  targetDuration : Option ℚ
  mediaUpdateTimeout : Option ℚ
  error : Option ErrInfo
  deriving DecidableEq

/-- Strict JS addition: an `undefined`/`NaN` operand poisons the result. -/
def jsAdd (a b : Option ℚ) : Option ℚ :=
  match a, b with
  | some x, some y => some (x + y)
  | _, _ => none

/-- Strict JS subtraction. -/
def jsSub (a b : Option ℚ) : Option ℚ :=
  match a, b with
  | some x, some y => some (x - y)
  | _, _ => none

/-- `x || d` on a JS number: `d` when `x` is absent or `0` (falsy). -/
def jsOr (x : Option ℚ) (d : ℚ) : ℚ :=
  match x with
  | some v => if v = 0 then d else v
  | none => d

/-- `x >= k` on a possibly-undefined JS number (`undefined >= k` is false). -/
def jsGE (x : Option Int) (k : Int) : Bool :=
  match x with
  | some v => k ≤ v
  | none => false

/-- `x <= k` on a possibly-undefined JS number (`undefined <= k` is false). -/
def jsLE (x : Option ℚ) (k : ℚ) : Bool :=
  match x with
  | some v => v ≤ k
  | none => false

/-- `enabledPlaylists()` (source lines 148–152): the number of refs whose
`excludeUntil` is falsy (absent — or `0`, a falsy timestamp) or has
elapsed.  `Date.now()` is passed in as `now`. -/
def enabledPlaylists (now : Int) (master : MasterPlaylist) : Nat :=
  (master.playlists.filter (fun p =>
    match p.excludeUntil with
    | none => true
    | some v => v == 0 || v ≤ now)).length

/-- `isLowestEnabledRendition_()` (source lines 193–218): false when the
active media or its `attributes` object is missing; otherwise
`!(count > 1)` where `count` is the number of enabled refs whose bandwidth
is `<=` the active bandwidth.  A ref without an `attributes` object counts
with bandwidth `0`; a ref with attributes but no `BANDWIDTH` has
`undefined <= current`, which is false. -/
def isLowestEnabledRendition (now : Int) (master : MasterPlaylist)
    (media : Option MediaPlaylist) : Bool :=
  match media with
  | none => false
  | some m =>
    match m.attributes with
    | none => false
    | some attrs =>
      let currentBandwidth : ℚ := jsOr attrs.BANDWIDTH 0
      !((master.playlists.filter (fun p =>
          let enabled : Bool :=
            match p.excludeUntil with
            | none => true
            | some v => v ≤ now
          if !enabled then false
          else
            jsLE (match p.attributes with
                  | some a => a.BANDWIDTH
                  | none => some 0) currentBandwidth)).length > 1)

/-- The backward walk of `updateMediaPlaylist_` (source lines 330–351),
`fuel` = number of remaining indices (the loop starts at index `fuel - 1`
and runs down to `0`).  A missing segment adds `targetDuration || 10`; a
precise `end` ends the walk with `expired_ = end`; a precise `start` ends
it with `expired_ = start + duration`; otherwise the duration accumulates. -/
def expiredWalk (segs : List Segment) (td : Option ℚ) :
    Nat → Option ℚ → Option ℚ
  | 0, exp => exp
  | n + 1, exp =>
    match segs[n]? with
    | none => expiredWalk segs td n (jsAdd exp (some (jsOr td 10)))
    | some seg =>
      match seg.endTime with
      | some e => some e
      | none =>
        match seg.startTime with
        | some s => jsAdd (some s) seg.duration
        | none => expiredWalk segs td n (jsAdd exp seg.duration)

/-- Sum of the first `n` segment durations (strict JS addition). -/
def sumDur (segs : List Segment) : Nat → Option ℚ
  | 0 => some 0
  | n + 1 => jsAdd (sumDur segs n) ((segs.getD n emptySegment).duration)

/-- `updateMediaPlaylist_(update)` (source lines 291–352), the live window
tracker.  `this._media` is re-pointed at the master's entry for the
update's uri first; the expired-time computation then runs only when there
was a previous active playlist, tracking is enabled, and the uri did not
change.  `none` models the `TypeError` thrown when the walk indexes
`outdated.segments[i]` on an `undefined` segment list (the loop body is
never entered when the start index is negative, so no throw happens then). -/
def updateMediaPlaylist (ld : Loader) (update : MediaUpdate) : Option Loader :=
  match ld.master with
  | none => none
  | some master =>
    let outdated := ld.media
    let ld1 := { ld with media := lookupPlaylist master update.uri }
    match outdated with
    | none => some ld1
    | some outdated =>
      if ld.trackExpiredTime = false then some ld1
      else if update.uri ≠ outdated.uri then some ld1
      else
        let walk : Option Loader :=
          match outdated.segments with
          | some segs =>
            let e := expiredWalk segs outdated.targetDuration
              (update.mediaSequence - outdated.mediaSequence).toNat ld1.expired
            some { ld1 with expired := e }
          | none =>
            if update.mediaSequence - outdated.mediaSequence - 1 < 0 then some ld1
            else none
        match update.segments with
        | [] => walk
        | s0 :: _ =>
          match s0.startTime with
          | some s => some { ld1 with expired := some s }
          | none =>
            match s0.endTime with
            | some e => some { ld1 with expired := jsSub (some e) s0.duration }
            | none => walk

/-- `haveMetadata(xhr, url)` (source lines 154–186).  After
`setBandwidth(xhr)` and `this.state = 'HAVE_METADATA'`, line 161 reads
`parser.mainfest.uri = url` — `mainfest` is a typo for `manifest` (spelled
correctly three lines later), so the property access is on `undefined` and
a `TypeError` is thrown unconditionally.  Execution never reaches the
merge, the refresh-delay computation, or the timer.  `Except.error` carries
the loader state at the moment of the throw. -/
def haveMetadata (ld : Loader) (xhr : Xhr) (url : String) : Except Loader Loader :=
  Except.error { ld with bandwidth := xhr.bandwidth, state := LState.HAVE_METADATA }

/-- Modelled from the source lines 163–185 as they would execute were the
line-161 `parser.mainfest` typo spelled `parser.manifest`: the rest of
`haveMetadata` (merge, refresh-delay computation, timer arming).  The
`manifest` argument stands for the parsed response with its `uri` set to
`url`.  Kept separate from `haveMetadata`, which models the code as
written. -/
def haveMetadataIntended (resolve : Option String → Option String → String)
    (ld : Loader) (xhr : Xhr) (url : String) (manifest : MediaUpdate) : Option Loader := do
  let ld := { ld with bandwidth := xhr.bandwidth, state := LState.HAVE_METADATA }
  let master ← ld.master
  let update ← updateMaster resolve master { manifest with uri := url }
  let delay : ℚ := jsOr manifest.targetDuration 10 * 1000
  let ld := { ld with refreshDelay := some delay, targetDuration := manifest.targetDuration }
  let ld ← match update with
    | some m' => updateMediaPlaylist { ld with master := some m' } { manifest with uri := url }
    | none => some { ld with refreshDelay := some (delay / 2) }
  let active ← ld.media
  if active.endList = false then
    pure { ld with mediaUpdateTimeout := ld.refreshDelay }
  else
    pure ld

/-- `onPlaylistRequestError(xhr, url, startingState)` (source lines
354–372): records the transfer's bandwidth (from the in-flight handle when
there is one, else from `xhr`), clears `this._xhr`, reverts `this.state`
when a starting state was supplied, and builds `this.error` with
`code = (xhr.status >= 500) ? 4 : 2`.  `none` models the `TypeError` when
`this.master` is still `undefined`. -/
def onPlaylistRequestError (ld : Loader) (xhr : Xhr) (url : String)
    (startingState : Option LState) : Option Loader :=
  match ld.master with
  | none => none
  | some master =>
    some { ld with
      bandwidth := (match ld.xhr with | some x => x | none => xhr).bandwidth
      xhr := none
      state := (match startingState with | some s => s | none => ld.state)
      error := some {
        playlist := lookupPlaylist master url
        status := xhr.status
        message := "HLS playlist request error at URL: " ++ url
        responseText := xhr.responseText
        code := if jsGE xhr.status 500 then 4 else 2 } }

/-- The notifications `media()` can fire. -/
inductive LEvent where
  | mediachanging | mediachange | loadedmetadata
  deriving DecidableEq

/-- Result of a `media(uri)` call: the loader afterwards, the events fired,
and the uri of a newly issued playlist request if one was issued. -/
structure MediaOutcome where
  loader : Loader
  events : List LEvent
  fetch : Option String
  deriving DecidableEq

/-- The setter path of `media(playlist)` (source lines 374–463) called with
a uri string.  In `HAVE_NOTHING` the source only logs and continues; the
`this.master.playlists` access then throws when no master is loaded
(`none`).  An unknown uri logs, leaves `playlist` `undefined`, and throws
at `playlist.uri` (`none`).  For an `endList` target the switch is
synchronous: abort any request, `state = 'HAVE_METADATA'`, adopt the
target; when that is an actual media change the source then calls
`this.trigger`, WHICH DOES NOT EXIST on this class, so a `TypeError` is
thrown (`none`).  Past the no-op/debounce returns, every path reaches
`this.trigger('mediachanging')` (when a media is active) or
`this.hls_.xhr(...)` — `this.hls_` is never assigned — and throws, so no
fetch is ever actually issued. -/
def mediaSet (resolve : Option String → Option String → String)
    (ld : Loader) (uri : String) : Option MediaOutcome :=
  match ld.master with
  | none => none
  | some master =>
    match lookupPlaylist master uri with
    | none => none
    | some playlist =>
      let mediaChange : Bool :=
        match ld.media with
        | none => true
        | some m => playlist.uri != m.uri
      match lookupPlaylist master playlist.uri with
      | none => none
      | some entry =>
        if entry.endList then
          if mediaChange then none
          else
            let ld1 := { ld with xhr := none, state := LState.HAVE_METADATA,
                                 media := some playlist }
            some { loader := ld1, events := [], fetch := none }
        else if !mediaChange then
          some { loader := ld, events := [], fetch := none }
        else
          let ld1 := { ld with state := LState.SWITCHING_MEDIA }
          match ld1.xhr with
          | some x =>
            if x.url = resolve master.uri (some playlist.uri) then
              some { loader := ld1, events := [], fetch := none }
            else none
          | none => none

end M3U8

namespace M3U8

/-! ## Basic lemmas about the JS-object helpers -/

theorem overlay_map {α β : Type} (g : α → β) (s t : Option α) :
    (overlay s t).map g = overlay (s.map g) (t.map g) := by
  cases s <;> rfl

/-- `Object.assign` picks the source's value field-by-field, falling back to
the target's. -/
theorem assignSeg_getField (b u : Segment) (f : SegField) :
    (assignSeg b u).getField f = overlay (u.getField f) (b.getField f) := by
  cases f <;> simp [Segment.getField, assignSeg, overlay_map]

theorem jsGet_natCast (l : List Segment) (n : Nat) : jsGet l (n : Int) = l[n]? := by
  unfold jsGet
  rw [if_neg (by omega)]
  congr 1

theorem getElem?_eq_some_getD (l : List Segment) (m : Nat) (h : m < l.length) :
    l[m]? = some (l.getD m emptySegment) := by
  rw [List.getElem?_eq_getElem h]
  congr 1
  exact (List.getD_eq_getElem l emptySegment h).symm

theorem getD_of_getElem?_some {l : List Segment} {m : Nat} {a : Segment}
    (h : l[m]? = some a) : l.getD m emptySegment = a := by
  rw [List.getD_eq_getElem?_getD, h]
  rfl

theorem getD_set_ne (l : List Segment) (i j : Nat) (a : Segment) (h : i ≠ j) :
    (l.set i a).getD j emptySegment = l.getD j emptySegment := by
  rw [List.getD_eq_getElem?_getD, List.getD_eq_getElem?_getD, List.getElem?_set_ne h]

/-! ## Characterization of the reconciler loop -/

/-- Full characterization of the `updateSegments` loop: starting at slot `k`
with `fuel` iterations left, provided every index the loop will read is in
bounds, the loop succeeds; slots outside `[k, k+fuel)` of `result` (and
outside `[o+k, o+k+fuel)` of `original`) are untouched, and each slot `m`
inside the window holds `Object.assign(original[o+m], update[m])`, which is
also the post-call value of `original[o+m]` (the same mutated object). -/
theorem updateSegmentsGo_spec (o : Nat) :
    ∀ (fuel k : Nat) (orig res : List Segment),
      (∀ j, j < fuel → o + (k + j) < orig.length) →
      k + fuel ≤ res.length →
      ∃ res' orig',
        updateSegmentsGo (o : Int) fuel k orig res = some (res', orig') ∧
        res'.length = res.length ∧ orig'.length = orig.length ∧
        (∀ m, m < k ∨ k + fuel ≤ m → res'[m]? = res[m]?) ∧
        (∀ m, m < o + k ∨ o + k + fuel ≤ m → orig'[m]? = orig[m]?) ∧
        (∀ m, k ≤ m → m < k + fuel →
          res'[m]? = some (assignSeg (orig.getD (o + m) emptySegment)
                             (res.getD m emptySegment)) ∧
          orig'[o + m]? = res'[m]?) := by
  intro fuel
  induction fuel with
  | zero =>
    intro k orig res _ _
    exact ⟨res, orig, rfl, rfl, rfl, fun m _ => rfl, fun m _ => rfl,
      fun m hm hm' => absurd hm' (by omega)⟩
  | succ fuel ih =>
    intro k orig res hin hlen
    have hk : o + k < orig.length := by
      have := hin 0 (by omega)
      omega
    have hcast : (o : Int) + (k : Nat) = ((o + k : Nat) : Int) := by push_cast; ring
    have hjs : jsGet orig ((o : Int) + (k : Nat)) = some (orig.getD (o + k) emptySegment) := by
      rw [hcast, jsGet_natCast, getElem?_eq_some_getD _ _ hk]
    have htn : ((o : Int) + (k : Nat)).toNat = o + k := by omega
    set merged := assignSeg (orig.getD (o + k) emptySegment) (res.getD k emptySegment) with hmerged
    have hstep :
        updateSegmentsGo (o : Int) (fuel + 1) k orig res =
        updateSegmentsGo (o : Int) fuel (k + 1) (orig.set (o + k) merged) (res.set k merged) := by
      rw [updateSegmentsGo, hjs, htn]
    obtain ⟨res', orig', hgo, hrl, hol, hres, horig, hwin⟩ :=
      ih (k + 1) (orig.set (o + k) merged) (res.set k merged)
        (by
          intro j hj
          rw [List.length_set]
          have := hin (j + 1) (by omega)
          omega)
        (by rw [List.length_set]; omega)
    refine ⟨res', orig', by rw [hstep]; exact hgo, ?_, ?_, ?_, ?_, ?_⟩
    · rw [hrl, List.length_set]
    · rw [hol, List.length_set]
    · intro m hm
      have h1 : res'[m]? = (res.set k merged)[m]? := hres m (by omega)
      rw [h1, List.getElem?_set_ne (by omega)]
    · intro m hm
      have h1 : orig'[m]? = (orig.set (o + k) merged)[m]? := horig m (by omega)
      rw [h1, List.getElem?_set_ne (by omega)]
    · intro m hm hm'
      rcases Nat.eq_or_lt_of_le hm with hmk | hmk
      · subst hmk
        have h1 : res'[k]? = (res.set k merged)[k]? := hres k (by omega)
        have h2 : (res.set k merged)[k]? = some merged :=
          List.getElem?_set_eq_of_lt merged (by omega)
        have h3 : orig'[o + k]? = (orig.set (o + k) merged)[o + k]? := horig (o + k) (by omega)
        have h4 : (orig.set (o + k) merged)[o + k]? = some merged :=
          List.getElem?_set_eq_of_lt merged (by omega)
        refine ⟨by rw [h1, h2], by rw [h3, h4, h1, h2]⟩
      · have hw := hwin m (by omega) (by omega)
        have e1 : (orig.set (o + k) merged).getD (o + m) emptySegment =
            orig.getD (o + m) emptySegment := getD_set_ne _ _ _ _ (by omega)
        have e2 : (res.set k merged).getD m emptySegment = res.getD m emptySegment :=
          getD_set_ne _ _ _ _ (by omega)
        rw [e1, e2] at hw
        exact hw

/-- Characterization of `updateSegments` for a non-negative offset that does
not exceed the original's length: the call returns normally; the returned
list agrees with `update` outside the overlap window and holds the
`Object.assign`-merge inside it, and the post-call `original` is mutated
exactly on the window, aliasing the corresponding result slots. -/
theorem updateSegments_spec (original update : List Segment) (o : Nat)
    (h : o ≤ original.length) :
    ∃ res orig',
      updateSegments original update (o : Int) = some (res, orig') ∧
      res.length = update.length ∧ orig'.length = original.length ∧
      (∀ m, min original.length (update.length + o) ≤ m + o → res[m]? = update[m]?) ∧
      (∀ i, i < o ∨ min original.length (update.length + o) ≤ i →
        orig'[i]? = original[i]?) ∧
      (∀ i, o ≤ i → i < min original.length (update.length + o) →
        res[i - o]? = some (assignSeg (original.getD i emptySegment)
                              (update.getD (i - o) emptySegment)) ∧
        orig'[i]? = res[i - o]?) := by
  have hfuel :
      ((min (original.length : Int) ((update.length : Int) + (o : Int))) - (o : Int)).toNat =
      min original.length (update.length + o) - o := by omega
  obtain ⟨res', orig', hgo, hrl, hol, hres, horig, hwin⟩ :=
    updateSegmentsGo_spec o (min original.length (update.length + o) - o) 0 original update
      (by intro j hj; omega) (by omega)
  refine ⟨res', orig', ?_, by rw [hrl], by rw [hol], ?_, ?_, ?_⟩
  · show updateSegmentsGo ((o : Nat) : Int)
      ((min (original.length : Int) ((update.length : Int) + (o : Int)) - (o : Int)).toNat)
      0 original update = some (res', orig')
    rw [hfuel]
    exact hgo
  · intro m hm
    exact hres m (by omega)
  · intro i hi
    exact horig i (by omega)
  · intro i hi hi'
    have hw := hwin (i - o) (by omega) (by omega)
    have heq : o + (i - o) = i := by omega
    rw [heq] at hw
    exact hw

/-- C1: for every original segment list, update segment list and offset with
`0 ≤ offset ≤ len(original)`, `updateSegments` returns a sequence of exactly
`len(update)` segments; at each overlap index
`i ∈ [offset, min(len(original), len(update)+offset))` the result at
position `i − offset` carries the update's value for every field the update
sets and the original's value for every field absent on the update but
present on `original[i]`; every position outside the overlap is the update
segment unmodified. -/
theorem mergeSegments_contract (original update : List Segment) (o : Nat)
    (h : o ≤ original.length) :
    ∃ res orig', updateSegments original update (o : Int) = some (res, orig') ∧
      res.length = update.length ∧
      (∀ i, o ≤ i → i < min original.length (update.length + o) →
        (∀ f v, (update.getD (i - o) emptySegment).getField f = some v →
           (res.getD (i - o) emptySegment).getField f = some v) ∧
        (∀ f v, (update.getD (i - o) emptySegment).getField f = none →
           (original.getD i emptySegment).getField f = some v →
           (res.getD (i - o) emptySegment).getField f = some v)) ∧
      (∀ k, min original.length (update.length + o) ≤ k + o → res[k]? = update[k]?) := by
  obtain ⟨res, orig', hcall, hrl, _, hout, _, hwin⟩ := updateSegments_spec original update o h
  refine ⟨res, orig', hcall, hrl, ?_, hout⟩
  intro i hi hi'
  obtain ⟨hres, _⟩ := hwin i hi hi'
  have hgd : res.getD (i - o) emptySegment =
      assignSeg (original.getD i emptySegment) (update.getD (i - o) emptySegment) :=
    getD_of_getElem?_some hres
  constructor
  · intro f v hv
    rw [hgd, assignSeg_getField, hv]
    rfl
  · intro f v hu hv
    rw [hgd, assignSeg_getField, hu, hv]
    rfl

/-- Witness for C1, at `original = [a]`, `update = [b]`, `offset = 1`
(empty overlap window: the update is returned unchanged). -/
theorem mergeSegments_contract_witness :
    (1 ≤ ([{ emptySegment with duration := some 4 }] : List Segment).length) ∧
    (∃ res orig',
      updateSegments [{ emptySegment with duration := some 4 }]
        [{ emptySegment with uri := some "u" }] ((1 : Nat) : Int) = some (res, orig') ∧
      res.length = ([{ emptySegment with uri := some "u" }] : List Segment).length ∧
      (∀ i, 1 ≤ i →
        i < min ([{ emptySegment with duration := some 4 }] : List Segment).length
            (([{ emptySegment with uri := some "u" }] : List Segment).length + 1) →
        (∀ f v, (([{ emptySegment with uri := some "u" }] : List Segment).getD (i - 1)
              emptySegment).getField f = some v →
           (res.getD (i - 1) emptySegment).getField f = some v) ∧
        (∀ f v, (([{ emptySegment with uri := some "u" }] : List Segment).getD (i - 1)
              emptySegment).getField f = none →
           (([{ emptySegment with duration := some 4 }] : List Segment).getD i
              emptySegment).getField f = some v →
           (res.getD (i - 1) emptySegment).getField f = some v)) ∧
      (∀ k, min ([{ emptySegment with duration := some 4 }] : List Segment).length
            (([{ emptySegment with uri := some "u" }] : List Segment).length + 1) ≤ k + 1 →
        res[k]? = ([{ emptySegment with uri := some "u" }] : List Segment)[k]?)) :=
  ⟨by decide,
   mergeSegments_contract [{ emptySegment with duration := some 4 }]
     [{ emptySegment with uri := some "u" }] 1 (by decide)⟩

end M3U8

namespace M3U8

/-- C4 counterexample: at `original = [{duration: 6}]`, `update = [{uri: "u"}]`,
`offset = -1` the merge does not return the update verbatim — it throws
(`Object.assign(original[-1], ...)` has an `undefined` target); and at
`offset = 2 > len(update) = 1` with a 3-element original the overlapping
position is merged with `original[2]`, not the update segment unmodified. -/
theorem mergeSegments_edge_counterexample :
    updateSegments [{ emptySegment with duration := some 6 }]
      [{ emptySegment with uri := some "u" }] (-1) = none ∧
    (updateSegments
        [{ emptySegment with duration := some 5 }, { emptySegment with duration := some 5 },
         { emptySegment with duration := some 6 }]
        [{ emptySegment with uri := some "u" }] 2).map Prod.fst =
      some [{ emptySegment with uri := some "u", duration := some 6 }] ∧
    ({ emptySegment with uri := some "u", duration := some 6 } : Segment) ≠
      { emptySegment with uri := some "u" } := by
  refine ⟨rfl, rfl, by decide⟩

/-- C4 (amended): the overlap window `[offset, min(len(original),
len(update)+offset))` is not clamped below.  When `offset ≥ len(original)`
(so also whenever the window is empty) the update's segments are returned
verbatim and the original is untouched; but when `offset` is negative and
the window is nonempty, the loop reads `original` at a negative index and
`Object.assign` throws a `TypeError` instead of returning. -/
theorem mergeSegments_degenerate (original update : List Segment) (offset : Int)
    (h : offset < 0 ∨ (original.length : Int) ≤ offset) :
    updateSegments original update offset =
      if offset < min (original.length : Int) ((update.length : Int) + offset)
      then none
      else some (update, original) := by
  by_cases hw : offset < min (original.length : Int) ((update.length : Int) + offset)
  · rw [if_pos hw]
    have hneg : offset < 0 := by
      rcases h with h | h
      · exact h
      · omega
    obtain ⟨m, hm⟩ :
        ∃ m, (min (original.length : Int) ((update.length : Int) + offset) - offset).toNat
          = m + 1 :=
      ⟨(min (original.length : Int) ((update.length : Int) + offset) - offset).toNat - 1,
        by omega⟩
    show updateSegmentsGo offset
        ((min (original.length : Int) ((update.length : Int) + offset) - offset).toNat)
        0 original update = none
    rw [hm, updateSegmentsGo]
    have hjs : jsGet original (offset + ((0 : Nat) : Int)) = none := by
      unfold jsGet
      rw [if_pos (by omega)]
    rw [hjs]
  · rw [if_neg hw]
    have h0 : (min (original.length : Int) ((update.length : Int) + offset) - offset).toNat
        = 0 := by omega
    show updateSegmentsGo offset
        ((min (original.length : Int) ((update.length : Int) + offset) - offset).toNat)
        0 original update = some (update, original)
    rw [h0]
    rfl

/-- Witness for C4 (amended), at `original = [a]`, `update = [b]`,
`offset = -1`: the window is nonempty, so the call throws. -/
theorem mergeSegments_degenerate_witness :
    (((-1 : Int) < 0 ∨ (([{ emptySegment with duration := some 6 }] : List Segment).length : Int)
        ≤ (-1 : Int)) ∧
      updateSegments [{ emptySegment with duration := some 6 }]
          [{ emptySegment with uri := some "u2" }] (-1) =
        if (-1 : Int) < min (([{ emptySegment with duration := some 6 }] : List Segment).length : Int)
            ((([{ emptySegment with uri := some "u2" }] : List Segment).length : Int) + (-1 : Int))
        then none
        else some ([{ emptySegment with uri := some "u2" }],
                   [{ emptySegment with duration := some 6 }])) :=
  ⟨Or.inl (by decide),
   mergeSegments_degenerate [{ emptySegment with duration := some 6 }]
     [{ emptySegment with uri := some "u2" }] (-1) (Or.inl (by decide))⟩

/-- C10 counterexample: `updateSegments([{duration: 4}], [{uri: "u"}], 0)`
leaves the original's only segment with a new `uri` property —
`Object.assign(original[0], update[0])` mutates `original[0]` in place, so
the inputs are not left unmodified. -/
theorem mergeSegments_mutation_counterexample :
    (updateSegments [{ emptySegment with duration := some 4 }]
        [{ emptySegment with uri := some "u" }] 0).map Prod.snd =
      some [{ emptySegment with uri := some "u", duration := some 4 }] ∧
    ([{ emptySegment with uri := some "u", duration := some 4 }] : List Segment) ≠
      [{ emptySegment with duration := some 4 }] := by
  refine ⟨rfl, by decide⟩

/-- C10 (amended): the merge never alters the update list (the returned list
is a fresh `update.slice()` whose slots are only replaced), but each
original segment inside the overlap window is mutated in place into the
merged segment (`Object.assign` with `original[i]` as target), and the
returned list aliases exactly those mutated originals; original segments
outside the window are untouched. -/
theorem mergeSegments_inplace (original update : List Segment) (o : Nat)
    (h : o ≤ original.length) :
    ∃ res orig', updateSegments original update (o : Int) = some (res, orig') ∧
      orig'.length = original.length ∧
      (∀ i, i < o ∨ min original.length (update.length + o) ≤ i →
        orig'[i]? = original[i]?) ∧
      (∀ i, o ≤ i → i < min original.length (update.length + o) →
        orig'[i]? = some (assignSeg (original.getD i emptySegment)
                            (update.getD (i - o) emptySegment)) ∧
        orig'[i]? = res[i - o]?) := by
  obtain ⟨res, orig', hcall, _, hol, _, hout, hwin⟩ := updateSegments_spec original update o h
  refine ⟨res, orig', hcall, hol, hout, ?_⟩
  intro i hi hi'
  obtain ⟨hres, halias⟩ := hwin i hi hi'
  exact ⟨by rw [halias, hres], halias⟩

/-- Witness for C10 (amended), at `original = [{duration: 4}]`,
`update = [{uri: "w"}]`, `offset = 0`. -/
theorem mergeSegments_inplace_witness :
    ((0 : Nat) ≤ ([{ emptySegment with duration := some 4 }] : List Segment).length) ∧
    (∃ res orig',
      updateSegments [{ emptySegment with duration := some 4 }]
        [{ emptySegment with uri := some "w" }] ((0 : Nat) : Int) = some (res, orig') ∧
      orig'.length = ([{ emptySegment with duration := some 4 }] : List Segment).length ∧
      (∀ i, i < 0 ∨ min ([{ emptySegment with duration := some 4 }] : List Segment).length
          (([{ emptySegment with uri := some "w" }] : List Segment).length + 0) ≤ i →
        orig'[i]? = ([{ emptySegment with duration := some 4 }] : List Segment)[i]?) ∧
      (∀ i, 0 ≤ i → i < min ([{ emptySegment with duration := some 4 }] : List Segment).length
          (([{ emptySegment with uri := some "w" }] : List Segment).length + 0) →
        orig'[i]? = some (assignSeg
            (([{ emptySegment with duration := some 4 }] : List Segment).getD i emptySegment)
            (([{ emptySegment with uri := some "w" }] : List Segment).getD (i - 0) emptySegment)) ∧
        orig'[i]? = res[i - 0]?)) :=
  ⟨by decide,
   mergeSegments_inplace [{ emptySegment with duration := some 4 }]
     [{ emptySegment with uri := some "w" }] 0 (by decide)⟩

end M3U8

namespace M3U8

/-! ## The master-playlist merge -/

/-- A concrete URI resolver used to instantiate the abstract `resolveURL`
parameter in concrete evaluations. -/
def sampleResolve : Option String → Option String → String :=
  fun base rel => base.getD "" ++ "/" ++ rel.getD ""

/-- `updateMasterRef` unfolded: after `Object.assign(playlist, media)` the
ref's segments are the update's own segments and the offset is computed
from two copies of the update's `mediaSequence`. -/
theorem updateMasterRef_eq (resolve : Option String → Option String → String)
    (p : MediaPlaylist) (m : MediaUpdate) :
    updateMasterRef resolve p m =
      (updateSegments m.segments m.segments ((m.mediaSequence - m.mediaSequence : Int))).map
        (fun r => { assignPlaylist p m with segments := some (r.1.map (resolveSegment resolve (assignPlaylist p m).resolvedUri)) }) := rfl

/-- The matching-ref update inside `updateMaster` never throws: its merge
runs with offset `0` over the update's own segments. -/
theorem updateMasterRef_some (resolve : Option String → Option String → String)
    (p : MediaPlaylist) (m : MediaUpdate) :
    ∃ p', updateMasterRef resolve p m = some p' := by
  rw [updateMasterRef_eq]
  have hoff : (m.mediaSequence - m.mediaSequence : Int) = ((0 : Nat) : Int) := by omega
  rw [hoff]
  obtain ⟨res, orig', hcall, -, -, -, -, -⟩ :=
    updateSegments_spec m.segments m.segments 0 (Nat.zero_le _)
  rw [hcall]
  exact ⟨_, rfl⟩

/-- The claim's no-op criterion, spelled out: the ref already has a segment
list, of the same length as the update's, and the media sequence numbers
agree. -/
def noOpCriterion (p : MediaPlaylist) (m : MediaUpdate) : Prop :=
  ∃ segs, p.segments = some segs ∧ segs.length = m.segments.length ∧
    p.mediaSequence = m.mediaSequence

theorem isNoOp_iff (p : MediaPlaylist) (m : MediaUpdate) :
    isNoOp p m = true ↔ noOpCriterion p m := by
  unfold isNoOp noOpCriterion
  cases hs : p.segments with
  | none => simp
  | some segs => simp [hs]

/-- Characterization of the `while (i--)` loop of `updateMaster`: it always
returns, and the `changed` flag is set iff some entry matches the update's
uri and fails the no-op test. -/
theorem updateMasterGo_spec (resolve : Option String → Option String → String)
    (media : MediaUpdate) :
    ∀ l : List MediaPlaylist, ∃ l' c, updateMasterGo resolve media l = some (l', c) ∧
      (c = true ↔ ∃ p ∈ l, p.uri = media.uri ∧ isNoOp p media = false) := by
  intro l
  induction l with
  | nil => exact ⟨[], false, rfl, by simp⟩
  | cons p rest ih =>
    obtain ⟨l', c, hgo, hiff⟩ := ih
    by_cases hu : p.uri = media.uri
    · by_cases hn : isNoOp p media = true
      · refine ⟨p :: l', c, ?_, ?_⟩
        · simp [updateMasterGo, hgo, hu, hn]
        · constructor
          · intro hc
            obtain ⟨q, hq, hq2⟩ := hiff.mp hc
            exact ⟨q, List.mem_cons_of_mem _ hq, hq2⟩
          · rintro ⟨q, hq, hq1, hq2⟩
            rcases List.mem_cons.mp hq with rfl | hq
            · rw [hn] at hq2
              cases hq2
            · exact hiff.mpr ⟨q, hq, hq1, hq2⟩
      · obtain ⟨p', hp'⟩ := updateMasterRef_some resolve p media
        refine ⟨p' :: l', true, ?_, ?_⟩
        · simp [updateMasterGo, hgo, hu, hn, hp']
        · simp only [true_iff]
          exact ⟨p, List.mem_cons_self _ _, hu, by simpa using hn⟩
    · refine ⟨p :: l', c, ?_, ?_⟩
      · simp [updateMasterGo, hgo, hu]
      · constructor
        · intro hc
          obtain ⟨q, hq, hq2⟩ := hiff.mp hc
          exact ⟨q, List.mem_cons_of_mem _ hq, hq2⟩
        · rintro ⟨q, hq, hq1, hq2⟩
          rcases List.mem_cons.mp hq with rfl | hq
          · exact absurd hq1 hu
          · exact hiff.mpr ⟨q, hq, hq1, hq2⟩

/-- C3: `updateMaster` never throws, and — provided at most one entry
carries the update's uri, as the by-URI alias table presumes — it returns
`null` exactly when no entry has the update's uri or the matching entry
passes the no-op test (same segment count and same media sequence number);
in every other case it returns the updated master. -/
theorem mergeMaster_none_iff (resolve : Option String → Option String → String)
    (master : MasterPlaylist) (media : MediaUpdate)
    (huniq : (master.playlists.filter (fun p => p.uri == media.uri)).length ≤ 1) :
    (∃ r, updateMaster resolve master media = some r) ∧
    (updateMaster resolve master media = some none ↔
      (∀ p ∈ master.playlists, p.uri ≠ media.uri) ∨
      (∃ p ∈ master.playlists, p.uri = media.uri ∧ noOpCriterion p media)) ∧
    (¬ ((∀ p ∈ master.playlists, p.uri ≠ media.uri) ∨
        (∃ p ∈ master.playlists, p.uri = media.uri ∧ noOpCriterion p media)) →
      ∃ m', updateMaster resolve master media = some (some m')) := by
  obtain ⟨l', c, hgo, hiff⟩ := updateMasterGo_spec resolve media master.playlists
  have hupd : updateMaster resolve master media =
      some (if c then some { master with playlists := l' } else none) := by
    unfold updateMaster
    rw [hgo]
    rfl
  have key : c = false ↔
      ((∀ p ∈ master.playlists, p.uri ≠ media.uri) ∨
       (∃ p ∈ master.playlists, p.uri = media.uri ∧ noOpCriterion p media)) := by
    constructor
    · intro hc
      by_cases hm : ∃ p ∈ master.playlists, p.uri = media.uri
      · obtain ⟨p, hp, hpu⟩ := hm
        refine Or.inr ⟨p, hp, hpu, ?_⟩
        rw [← isNoOp_iff]
        by_contra hno
        have : c = true := hiff.mpr ⟨p, hp, hpu, by simpa using hno⟩
        rw [hc] at this
        cases this
      · refine Or.inl ?_
        intro p hp hpu
        exact hm ⟨p, hp, hpu⟩
    · intro h
      by_contra hc
      have hct : c = true := by
        cases c
        · exact absurd rfl hc
        · rfl
      obtain ⟨q, hq, hqu, hqmat⟩ := hiff.mp hct
      rcases h with h | h
      · exact h q hq hqu
      · obtain ⟨p, hp, hpu, hpcrit⟩ := h
        have hpno : isNoOp p media = true := (isNoOp_iff p media).mpr hpcrit
        have hpq : p ≠ q := by
          intro he
          rw [he, hqmat] at hpno
          cases hpno
        have hpf : p ∈ master.playlists.filter (fun x => x.uri == media.uri) :=
          List.mem_filter.mpr ⟨hp, by simp [hpu]⟩
        have hqf : q ∈ master.playlists.filter (fun x => x.uri == media.uri) :=
          List.mem_filter.mpr ⟨hq, by simp [hqu]⟩
        cases hfl : master.playlists.filter (fun x => x.uri == media.uri) with
        | nil =>
          rw [hfl] at hpf
          cases hpf
        | cons a tail =>
          have htail : tail = [] := by
            rw [hfl] at huniq
            simp only [List.length_cons] at huniq
            exact List.eq_nil_of_length_eq_zero (by omega)
          subst htail
          rw [hfl] at hpf hqf
          simp only [List.mem_singleton] at hpf hqf
          exact hpq (hpf.trans hqf.symm)
  cases c with
  | false =>
    have hupd' : updateMaster resolve master media = some none := by simpa using hupd
    refine ⟨⟨none, hupd'⟩, ?_, ?_⟩
    · rw [hupd']
      exact iff_of_true rfl (key.mp rfl)
    · intro hno
      exact absurd (key.mp rfl) hno
  | true =>
    have hupd' : updateMaster resolve master media =
        some (some { master with playlists := l' }) := by simpa using hupd
    refine ⟨⟨some { master with playlists := l' }, hupd'⟩, ?_, ?_⟩
    · rw [hupd']
      constructor
      · intro h
        exact absurd h (by simp)
      · intro h
        exact absurd (key.mpr h) (by simp)
    · intro _
      exact ⟨_, hupd'⟩

/-- A concrete one-ref master playlist and a no-op update for the C3
witness. -/
def c3wRef : MediaPlaylist :=
  { uri := "m.m3u8", resolvedUri := some "base/m.m3u8", attributes := none,
    excludeUntil := none, endList := false, targetDuration := some 4,
    mediaSequence := 5, segments := some [{ emptySegment with uri := some "s" }] }

def c3wMaster : MasterPlaylist :=
  { uri := some "base", playlists := [c3wRef] }

def c3wMedia : MediaUpdate :=
  { uri := "m.m3u8", mediaSequence := 5, targetDuration := some 4,
    endList := none, segments := [{ emptySegment with uri := some "s2" }] }

/-- Witness for C3, at a one-ref master and a no-op update (same segment
count, same media sequence number): the merge returns `null`. -/
theorem mergeMaster_none_iff_witness :
    ((c3wMaster.playlists.filter (fun p => p.uri == c3wMedia.uri)).length ≤ 1) ∧
    updateMaster sampleResolve c3wMaster c3wMedia = some none := by
  constructor
  · decide
  · have h := mergeMaster_none_iff sampleResolve c3wMaster c3wMedia (by decide)
    refine h.2.1.mpr (Or.inr ⟨c3wRef, List.mem_cons_self _ _, rfl, ?_⟩)
    exact ⟨_, rfl, rfl, rfl⟩

end M3U8

namespace M3U8

/-! ## C2: what the master merge actually does to overlapping segments -/

/-- Old segment `a` of the pre-update ref: established timing. -/
def c2segA : Segment :=
  { emptySegment with uri := some "a", duration := some 4, startTime := some 40 }

/-- Old segment `b` of the pre-update ref: established timing (`start = 44`)
that the refresh snapshot does not re-specify. -/
def c2segB : Segment :=
  { emptySegment with uri := some "b", duration := some 4, startTime := some 44 }

/-- The refresh's copy of segment `b`: no timing. -/
def c2newB : Segment := { emptySegment with uri := some "b", duration := some 4 }

/-- The refresh's new segment `c`. -/
def c2newC : Segment := { emptySegment with uri := some "c", duration := some 4 }

def c2ref : MediaPlaylist :=
  { uri := "m.m3u8", resolvedUri := some "base/m.m3u8", attributes := none,
    excludeUntil := none, endList := false, targetDuration := some 4,
    mediaSequence := 5, segments := some [c2segA, c2segB] }

def c2master : MasterPlaylist := { uri := some "base", playlists := [c2ref] }

/-- The refresh: sequence advanced by 1, segment `a` dropped, `c` appended. -/
def c2media : MediaUpdate :=
  { uri := "m.m3u8", mediaSequence := 6, targetDuration := some 4,
    endList := none, segments := [c2newB, c2newC] }

/-- What the source actually stores for segment `b` after the merge: the
update's own copy, merely URI-resolved — the old `start = 44` is gone. -/
def c2mergedSegB : Segment :=
  { emptySegment with uri := some "b", resolvedUri := some "base/m.m3u8/b", duration := some 4 }

def c2mergedSegC : Segment :=
  { emptySegment with uri := some "c", resolvedUri := some "base/m.m3u8/c", duration := some 4 }

def c2expectedRef : MediaPlaylist :=
  { c2ref with mediaSequence := 6, segments := some [c2mergedSegB, c2mergedSegC] }

def c2expected : MasterPlaylist := { c2master with playlists := [c2expectedRef] }

/-- C2 (code bug): on a material refresh, `updateMaster` does NOT produce
`mergeSegments(oldRef.segments, mediaUpdate.segments,
mediaUpdate.mediaSequence − oldRef.mediaSequence)`.  Because
`Object.assign(playlist, media)` mutates the ref before the merge, the
merge runs over the update's own segments with offset `0`, and fields
present on the old overlapping segments but absent on the update (here the
established `start = 44` on segment `b`) are lost, contradicting the
source's own comment "if the update could overlap existing segment
information, merge the two lists".  The second half evaluates the merge the
claim (and the comment) describes, which preserves `start = 44`. -/
theorem updateMaster_discards_history :
    updateMaster sampleResolve c2master c2media = some (some c2expected) ∧
    c2mergedSegB.startTime = none ∧
    (updateSegments [c2segA, c2segB] [c2newB, c2newC] 1).map Prod.fst =
      some [assignSeg c2segB c2newB, c2newC] ∧
    (assignSeg c2segB c2newB).startTime = some 44 := by
  refine ⟨by decide, rfl, by decide, rfl⟩

end M3U8

namespace M3U8

/-! ## The live window tracker -/

theorem jsAdd_zero (a : Option ℚ) : jsAdd a (some 0) = a := by
  cases a <;> simp [jsAdd]

theorem jsAdd_shuffle (a b c : Option ℚ) : jsAdd (jsAdd a b) c = jsAdd a (jsAdd c b) := by
  cases a <;> cases b <;> cases c <;> simp [jsAdd] <;> ring

/-- When every walked segment exists and carries no precise timing, the
walk accumulates exactly the sum of their durations. -/
theorem expiredWalk_sum (segs : List Segment) (td : Option ℚ) :
    ∀ n, (∀ j, j < n → ∃ seg, segs[j]? = some seg ∧
        seg.startTime = none ∧ seg.endTime = none) →
      ∀ exp, expiredWalk segs td n exp = jsAdd exp (sumDur segs n) := by
  intro n
  induction n with
  | zero =>
    intro _ exp
    simp [expiredWalk, sumDur, jsAdd_zero]
  | succ n ih =>
    intro h exp
    obtain ⟨seg, hseg, hst, hen⟩ := h n (by omega)
    rw [expiredWalk, hseg]
    simp only [hen, hst]
    rw [ih (fun j hj => h j (by omega))]
    rw [sumDur, getD_of_getElem?_some hseg]
    exact jsAdd_shuffle exp seg.duration (sumDur segs n)

/-- When the walked history is entirely missing (all indices out of range),
each step adds the `targetDuration || 10` estimate. -/
theorem expiredWalk_misses (td : Option ℚ) :
    ∀ n exp, expiredWalk ([] : List Segment) td n exp =
      jsAdd exp (some ((n : ℚ) * jsOr td 10)) := by
  intro n
  induction n with
  | zero =>
    intro exp
    simp [expiredWalk, jsAdd_zero]
  | succ n ih =>
    intro exp
    rw [expiredWalk]
    simp only [List.getElem?_nil]
    rw [ih]
    cases exp <;> simp [jsAdd] <;> push_cast <;> ring

/-- "The update's first segment carries no precise timing": either the
update has no segments, or its head has neither `start` nor `end`. -/
def noFirstTiming (m : MediaUpdate) : Prop :=
  m.segments = [] ∨
  ∃ s0 rest, m.segments = s0 :: rest ∧ s0.startTime = none ∧ s0.endTime = none

/-- Reduction of `updateMediaPlaylist_` to the backward walk when tracking
is on, the uri is unchanged, the old playlist has segments and the update's
first segment carries no precise timing. -/
theorem updateMediaPlaylist_walk (ld : Loader) (update : MediaUpdate)
    (master : MasterPlaylist) (old : MediaPlaylist) (segs : List Segment)
    (hM : ld.master = some master) (hold : ld.media = some old)
    (ht : ld.trackExpiredTime = true) (huri : update.uri = old.uri)
    (hsegs : old.segments = some segs) (hnt : noFirstTiming update) :
    updateMediaPlaylist ld update =
      some { ld with media := lookupPlaylist master update.uri,
                     expired := expiredWalk segs old.targetDuration
                       (update.mediaSequence - old.mediaSequence).toNat ld.expired } := by
  unfold updateMediaPlaylist
  rw [hM, hold, ht]
  rcases hnt with hnil | ⟨s0, rest, hcons, hst, hen⟩
  · simp [huri, hsegs, hnil]
  · simp [huri, hsegs, hcons, hst, hen]

/-- Reduction of `updateMediaPlaylist_` when the update's first segment
carries a precise `start`. -/
theorem updateMediaPlaylist_firstStart (ld : Loader) (update : MediaUpdate)
    (master : MasterPlaylist) (old : MediaPlaylist) (s0 : Segment)
    (rest : List Segment) (s : ℚ)
    (hM : ld.master = some master) (hold : ld.media = some old)
    (ht : ld.trackExpiredTime = true) (huri : update.uri = old.uri)
    (hseg : update.segments = s0 :: rest) (hst : s0.startTime = some s) :
    updateMediaPlaylist ld update =
      some { ld with media := lookupPlaylist master update.uri,
                     expired := some s } := by
  unfold updateMediaPlaylist
  rw [hM, hold, ht]
  simp [huri, hseg, hst]

/-- Reduction of `updateMediaPlaylist_` when the update's first segment
carries a precise `end` (and no `start`). -/
theorem updateMediaPlaylist_firstEnd (ld : Loader) (update : MediaUpdate)
    (master : MasterPlaylist) (old : MediaPlaylist) (s0 : Segment)
    (rest : List Segment) (e : ℚ)
    (hM : ld.master = some master) (hold : ld.media = some old)
    (ht : ld.trackExpiredTime = true) (huri : update.uri = old.uri)
    (hseg : update.segments = s0 :: rest) (hst : s0.startTime = none)
    (hen : s0.endTime = some e) :
    updateMediaPlaylist ld update =
      some { ld with media := lookupPlaylist master update.uri,
                     expired := jsSub (some e) s0.duration } := by
  unfold updateMediaPlaylist
  rw [hM, hold, ht]
  simp [huri, hseg, hst, hen]

end M3U8

namespace M3U8

/-- C5: for every accepted media-playlist update processed by
`updateMediaPlaylist_` with tracking enabled, a previous active playlist,
and an unchanged uri: (1) a precise `start` on the update's first segment
sets `expired_` to exactly that start; (2) else a precise `end` sets it to
`end − duration`; otherwise `expired_` results from walking the old
playlist's segments backward from index
`new.mediaSequence − old.mediaSequence − 1` down to `0`, where (3) segments
present without precise timing accumulate exactly the sum of their
durations, (4) entirely missing history adds `targetDuration || 10` per
index, (5) a precise `end` at the first examined index stops the walk with
`expired_ = end`, and (6) a precise `start` there stops it with
`expired_ = start + duration`. -/
theorem liveWindowTracker_expired (ld : Loader) (update : MediaUpdate)
    (master : MasterPlaylist) (old : MediaPlaylist)
    (hM : ld.master = some master) (hold : ld.media = some old)
    (ht : ld.trackExpiredTime = true) (huri : update.uri = old.uri) :
    (∀ s0 rest s, update.segments = s0 :: rest → s0.startTime = some s →
      ∃ ld', updateMediaPlaylist ld update = some ld' ∧ ld'.expired = some s) ∧
    (∀ s0 rest e, update.segments = s0 :: rest → s0.startTime = none →
      s0.endTime = some e →
      ∃ ld', updateMediaPlaylist ld update = some ld' ∧
        ld'.expired = jsSub (some e) s0.duration) ∧
    (∀ segs, old.segments = some segs → noFirstTiming update →
      (∃ ld', updateMediaPlaylist ld update = some ld' ∧
        ld'.expired = expiredWalk segs old.targetDuration
          (update.mediaSequence - old.mediaSequence).toNat ld.expired) ∧
      ((∀ j, j < (update.mediaSequence - old.mediaSequence).toNat →
          ∃ seg, segs[j]? = some seg ∧ seg.startTime = none ∧ seg.endTime = none) →
        ∃ ld', updateMediaPlaylist ld update = some ld' ∧
          ld'.expired = jsAdd ld.expired
            (sumDur segs (update.mediaSequence - old.mediaSequence).toNat))) ∧
    (old.segments = some [] → noFirstTiming update →
      ∃ ld', updateMediaPlaylist ld update = some ld' ∧
        ld'.expired = jsAdd ld.expired
          (some ((((update.mediaSequence - old.mediaSequence).toNat : Nat) : ℚ) *
            jsOr old.targetDuration 10))) ∧
    (∀ segs seg e, old.segments = some segs → noFirstTiming update →
      0 < (update.mediaSequence - old.mediaSequence).toNat →
      segs[(update.mediaSequence - old.mediaSequence).toNat - 1]? = some seg →
      seg.endTime = some e →
      ∃ ld', updateMediaPlaylist ld update = some ld' ∧ ld'.expired = some e) ∧
    (∀ segs seg s, old.segments = some segs → noFirstTiming update →
      0 < (update.mediaSequence - old.mediaSequence).toNat →
      segs[(update.mediaSequence - old.mediaSequence).toNat - 1]? = some seg →
      seg.endTime = none → seg.startTime = some s →
      ∃ ld', updateMediaPlaylist ld update = some ld' ∧
        ld'.expired = jsAdd (some s) seg.duration) := by
  refine ⟨?_, ?_, ?_, ?_, ?_, ?_⟩
  · intro s0 rest s hseg hst
    exact ⟨_, updateMediaPlaylist_firstStart ld update master old s0 rest s
      hM hold ht huri hseg hst, rfl⟩
  · intro s0 rest e hseg hst hen
    exact ⟨_, updateMediaPlaylist_firstEnd ld update master old s0 rest e
      hM hold ht huri hseg hst hen, rfl⟩
  · intro segs hsegs hnt
    constructor
    · exact ⟨_, updateMediaPlaylist_walk ld update master old segs
        hM hold ht huri hsegs hnt, rfl⟩
    · intro hall
      refine ⟨_, updateMediaPlaylist_walk ld update master old segs
        hM hold ht huri hsegs hnt, ?_⟩
      show expiredWalk segs old.targetDuration
          (update.mediaSequence - old.mediaSequence).toNat ld.expired = _
      rw [expiredWalk_sum segs old.targetDuration _ hall ld.expired]
  · intro hsegs hnt
    refine ⟨_, updateMediaPlaylist_walk ld update master old []
      hM hold ht huri hsegs hnt, ?_⟩
    show expiredWalk [] old.targetDuration
        (update.mediaSequence - old.mediaSequence).toNat ld.expired = _
    rw [expiredWalk_misses]
  · intro segs seg e hsegs hnt hpos hseg hen
    refine ⟨_, updateMediaPlaylist_walk ld update master old segs
      hM hold ht huri hsegs hnt, ?_⟩
    show expiredWalk segs old.targetDuration
        (update.mediaSequence - old.mediaSequence).toNat ld.expired = some e
    obtain ⟨m, hm⟩ : ∃ m, (update.mediaSequence - old.mediaSequence).toNat = m + 1 :=
      ⟨(update.mediaSequence - old.mediaSequence).toNat - 1, by omega⟩
    rw [hm] at hseg ⊢
    simp only [Nat.add_sub_cancel] at hseg
    rw [expiredWalk, hseg]
    simp [hen]
  · intro segs seg s hsegs hnt hpos hseg hen hst
    refine ⟨_, updateMediaPlaylist_walk ld update master old segs
      hM hold ht huri hsegs hnt, ?_⟩
    show expiredWalk segs old.targetDuration
        (update.mediaSequence - old.mediaSequence).toNat ld.expired =
      jsAdd (some s) seg.duration
    obtain ⟨m, hm⟩ : ∃ m, (update.mediaSequence - old.mediaSequence).toNat = m + 1 :=
      ⟨(update.mediaSequence - old.mediaSequence).toNat - 1, by omega⟩
    rw [hm] at hseg ⊢
    simp only [Nat.add_sub_cancel] at hseg
    rw [expiredWalk, hseg]
    simp [hen, hst]

/-- The concrete old playlist of the spec's worked example: sequence 10,
three remaining segments of duration 4 each, no precise timing. -/
def c5old : MediaPlaylist :=
  { uri := "a.m3u8", resolvedUri := some "base/a.m3u8", attributes := none,
    excludeUntil := none, endList := false, targetDuration := none,
    mediaSequence := 10,
    segments := some [{ emptySegment with duration := some 4 },
      { emptySegment with duration := some 4 },
      { emptySegment with duration := some 4 }] }

/-- The refresh of the worked example: sequence 12 (two segments dropped),
one timing-free segment. -/
def c5update : MediaUpdate :=
  { uri := "a.m3u8", mediaSequence := 12, targetDuration := none,
    endList := none, segments := [{ emptySegment with duration := some 4 }] }

def c5loader : Loader :=
  { state := LState.HAVE_METADATA,
    master := some { uri := some "base", playlists := [c5old] },
    media := some c5old, xhr := none, bandwidth := none, expired := some 0,
    trackExpiredTime := true, refreshDelay := none, targetDuration := none,
    mediaUpdateTimeout := none, error := none }

/-- Witness for C5, at the spec's worked example: old sequence 10 with
remaining durations `[4,4,4]`, new sequence 12, no precise timing anywhere —
`expired_` grows from 0 by exactly the sum of the two dropped durations, 8. -/
theorem liveWindowTracker_expired_witness :
    c5loader.master = some { uri := some "base", playlists := [c5old] } ∧
    c5loader.media = some c5old ∧
    c5loader.trackExpiredTime = true ∧
    c5update.uri = c5old.uri ∧
    ∃ ld', updateMediaPlaylist c5loader c5update = some ld' ∧ ld'.expired = some 8 := by
  refine ⟨rfl, rfl, rfl, rfl, ?_⟩
  have h := (liveWindowTracker_expired c5loader c5update
    { uri := some "base", playlists := [c5old] } c5old rfl rfl rfl rfl).2.2.1
    [{ emptySegment with duration := some 4 }, { emptySegment with duration := some 4 },
     { emptySegment with duration := some 4 }]
    rfl (Or.inr ⟨_, _, rfl, rfl, rfl⟩)
  obtain ⟨ld', hcall, hexp⟩ := h.2 (by decide)
  refine ⟨ld', hcall, ?_⟩
  rw [hexp]
  norm_num [c5loader, c5update, c5old, sumDur, jsAdd, emptySegment]

end M3U8

namespace M3U8

/-! ## C6: the media-response handler -/

/-- C6 (code bug): `haveMetadata` — the handler every completed media
response goes through — always throws before reaching the merge, the
refresh-delay computation, or the timer: line 161 assigns to a property of
`parser.mainfest` (a typo for `manifest`, spelled correctly at line 164),
i.e. of `undefined`, raising a `TypeError`.  Only the bandwidth bookkeeping
and the `HAVE_METADATA` state assignment precede the throw. -/
theorem haveMetadata_always_throws (ld : Loader) (xhr : Xhr) (url : String) :
    haveMetadata ld xhr url =
      Except.error { ld with bandwidth := xhr.bandwidth,
                             state := LState.HAVE_METADATA } := rfl

/-! ## C7: error classification -/

def c7xhr : Xhr := { url := "u.m3u8", status := none, bandwidth := none, responseText := "" }

def c7loader : Loader :=
  { state := LState.SWITCHING_MEDIA,
    master := some { uri := some "base", playlists := [] },
    media := none, xhr := none, bandwidth := none, expired := some 0,
    trackExpiredTime := false, refreshDelay := none, targetDuration := none,
    mediaUpdateTimeout := none, error := none }

/-- C7 counterexample: a network-level failure (missing HTTP status) is
recorded with code 2 (recoverable), not 4 (fatal): `undefined >= 500` is
false in JS, so the `(xhr.status >= 500) ? 4 : 2` classifier picks 2. -/
theorem requestError_missing_status_counterexample :
    (onPlaylistRequestError c7loader c7xhr "u.m3u8" (some LState.HAVE_MASTER)).map
        Loader.error =
      some (some { playlist := none, status := none,
                   message := "HLS playlist request error at URL: u.m3u8",
                   responseText := "", code := 2 }) ∧
    (2 : Int) ≠ 4 := by
  exact ⟨rfl, by decide⟩

/-- C7 (amended): on a playlist request failure the loader clears the
in-flight handle, reverts to the supplied starting state, and records an
error whose code is 4 (fatal) iff the status is present and ≥ 500, and 2
(recoverable) both for every status < 500 (in particular all of [400,499])
and for a missing status (network-level failure). -/
theorem requestError_behavior (ld : Loader) (xhr : Xhr) (url : String) (s0 : LState)
    (master : MasterPlaylist) (hM : ld.master = some master) :
    ∃ ld', onPlaylistRequestError ld xhr url (some s0) = some ld' ∧
      ld'.xhr = none ∧ ld'.state = s0 ∧
      ∃ err, ld'.error = some err ∧ err.status = xhr.status ∧
        (err.code = 4 ↔ ∃ v, xhr.status = some v ∧ 500 ≤ v) ∧
        (err.code = 2 ↔ (xhr.status = none ∨ ∃ v, xhr.status = some v ∧ v < 500)) := by
  have hcall : onPlaylistRequestError ld xhr url (some s0) =
      some { ld with
        bandwidth := (match ld.xhr with | some x => x | none => xhr).bandwidth
        xhr := none
        state := s0
        error := some {
          playlist := lookupPlaylist master url
          status := xhr.status
          message := "HLS playlist request error at URL: " ++ url
          responseText := xhr.responseText
          code := if jsGE xhr.status 500 then 4 else 2 } } := by
    unfold onPlaylistRequestError
    rw [hM]
  refine ⟨_, hcall, rfl, rfl, _, rfl, rfl, ?_, ?_⟩
  · cases hst : xhr.status with
    | none => simp [jsGE, hst]
    | some v =>
      by_cases hv : 500 ≤ v
      · simp [jsGE, hst, hv]
      · simp only [jsGE, hst]
        rw [if_neg (by simpa using hv)]
        simp [hv]
  · cases hst : xhr.status with
    | none => simp [jsGE, hst]
    | some v =>
      by_cases hv : 500 ≤ v
      · simp only [jsGE, hst]
        rw [if_pos (by simpa using hv)]
        simp [hv]
      · simp only [jsGE, hst]
        rw [if_neg (by simpa using hv)]
        simp [hv]
        all_goals omega

/-- Witness for C7 (amended), at a 404 failure from `SWITCHING_MEDIA` with
starting state `HAVE_METADATA`: handle cleared, state reverted, code 2. -/
theorem requestError_behavior_witness :
    c7loader.master = some { uri := some "base", playlists := [] } ∧
    ∃ ld', onPlaylistRequestError c7loader { c7xhr with status := some 404 } "u.m3u8"
        (some LState.HAVE_METADATA) = some ld' ∧
      ld'.xhr = none ∧ ld'.state = LState.HAVE_METADATA ∧
      ∃ err, ld'.error = some err ∧ err.status = ({ c7xhr with status := some 404 } : Xhr).status ∧
        (err.code = 4 ↔ ∃ v, ({ c7xhr with status := some 404 } : Xhr).status = some v ∧ 500 ≤ v) ∧
        (err.code = 2 ↔ (({ c7xhr with status := some 404 } : Xhr).status = none ∨
          ∃ v, ({ c7xhr with status := some 404 } : Xhr).status = some v ∧ v < 500)) :=
  ⟨rfl, requestError_behavior c7loader { c7xhr with status := some 404 } "u.m3u8"
    LState.HAVE_METADATA { uri := some "base", playlists := [] } rfl⟩

end M3U8

namespace M3U8

/-! ## C8: switching to the currently active rendition -/

/-- An `endList` rendition currently active. -/
def c8m : MediaPlaylist :=
  { uri := "a.m3u8", resolvedUri := some "base/a.m3u8", attributes := none,
    excludeUntil := none, endList := true, targetDuration := none,
    mediaSequence := 0, segments := some [] }

def c8master : MasterPlaylist := { uri := some "base", playlists := [c8m] }

/-- An in-flight request for a different uri (a pending switch). -/
def c8xhr : Xhr :=
  { url := "base/b.m3u8", status := none, bandwidth := none, responseText := "" }

def c8loader : Loader :=
  { state := LState.SWITCHING_MEDIA, master := some c8master, media := some c8m,
    xhr := some c8xhr, bandwidth := none, expired := some 0,
    trackExpiredTime := false, refreshDelay := none, targetDuration := none,
    mediaUpdateTimeout := none, error := none }

/-- C8 counterexample: calling `media` with the currently active uri while
its entry is `endList` and a request is in flight is NOT a no-op — the
in-flight handle is aborted and cleared and the state jumps to
`HAVE_METADATA` (from `SWITCHING_MEDIA` here). -/
theorem media_activeUri_counterexample :
    mediaSet sampleResolve c8loader "a.m3u8" =
      some { loader := { c8loader with xhr := none, state := LState.HAVE_METADATA,
                                       media := some c8m },
             events := [], fetch := none } ∧
    ({ c8loader with xhr := none, state := LState.HAVE_METADATA,
                     media := some c8m } : Loader) ≠ c8loader := by
  exact ⟨rfl, by decide⟩

/-- C8 (amended): calling `media` with the active rendition's uri issues no
fetch and fires no events; when the active entry's `endList` is false it is
a complete no-op (loader unchanged), but when `endList` is true it
additionally clears any in-flight request and sets the state to
`HAVE_METADATA` (re-adopting the entry synchronously). -/
theorem media_activeUri_behavior (resolve : Option String → Option String → String)
    (ld : Loader) (m : MediaPlaylist) (master : MasterPlaylist) (p : MediaPlaylist)
    (hM : ld.master = some master) (hmed : ld.media = some m)
    (hp : lookupPlaylist master m.uri = some p) :
    ∃ out, mediaSet resolve ld m.uri = some out ∧ out.fetch = none ∧ out.events = [] ∧
      (p.endList = false → out.loader = ld) ∧
      (p.endList = true →
        out.loader = { ld with xhr := none, state := LState.HAVE_METADATA,
                               media := some p }) := by
  have hpu : p.uri = m.uri := by
    have h := List.find?_some hp
    exact eq_of_beq h
  cases hE : p.endList with
  | true =>
    refine ⟨{ loader := { ld with xhr := none, state := LState.HAVE_METADATA,
                                  media := some p },
              events := [], fetch := none }, ?_, rfl, rfl, ?_, fun _ => rfl⟩
    · unfold mediaSet
      simp [hM, hp, hmed, hpu, hE]
    · intro hcontra
      simp at hcontra
  | false =>
    refine ⟨{ loader := ld, events := [], fetch := none }, ?_, rfl, rfl, fun _ => rfl, ?_⟩
    · unfold mediaSet
      simp [hM, hp, hmed, hpu, hE]
    · intro hcontra
      simp at hcontra

/-- A live (non-`endList`) active rendition for the C8 witness. -/
def c8live : MediaPlaylist := { c8m with endList := false }

def c8liveMaster : MasterPlaylist := { uri := some "base", playlists := [c8live] }

def c8liveLoader : Loader :=
  { c8loader with master := some c8liveMaster, media := some c8live }

/-- Witness for C8 (amended): with a live active rendition, switching to its
own uri is a complete no-op. -/
theorem media_activeUri_behavior_witness :
    c8liveLoader.master = some c8liveMaster ∧
    c8liveLoader.media = some c8live ∧
    lookupPlaylist c8liveMaster c8live.uri = some c8live ∧
    ∃ out, mediaSet sampleResolve c8liveLoader c8live.uri = some out ∧
      out.fetch = none ∧ out.events = [] ∧ out.loader = c8liveLoader := by
  refine ⟨rfl, rfl, rfl, ?_⟩
  obtain ⟨out, hcall, hf, he, hfalse, -⟩ :=
    media_activeUri_behavior sampleResolve c8liveLoader c8live c8liveMaster c8live
      rfl rfl rfl
  exact ⟨out, hcall, hf, he, hfalse rfl⟩

/-! ## C9: the rendition selector -/

def c9excluded : MediaPlaylist :=
  { uri := "p500", resolvedUri := none, attributes := some { BANDWIDTH := some 500000 },
    excludeUntil := some 2000, endList := false, targetDuration := none,
    mediaSequence := 0, segments := none }

def c9active : MediaPlaylist :=
  { uri := "p800a", resolvedUri := none, attributes := some { BANDWIDTH := some 800000 },
    excludeUntil := none, endList := false, targetDuration := none,
    mediaSequence := 0, segments := none }

def c9other : MediaPlaylist :=
  { uri := "p800b", resolvedUri := none, attributes := some { BANDWIDTH := some 800000 },
    excludeUntil := none, endList := false, targetDuration := none,
    mediaSequence := 0, segments := none }

def c9big : MediaPlaylist :=
  { uri := "p1200", resolvedUri := none, attributes := some { BANDWIDTH := some 1200000 },
    excludeUntil := none, endList := false, targetDuration := none,
    mediaSequence := 0, segments := none }

def c9master : MasterPlaylist :=
  { uri := none, playlists := [c9excluded, c9active, c9other, c9big] }

/-- A ref whose `attributes` object exists but carries no `BANDWIDTH`. -/
def c9nobw : MediaPlaylist :=
  { uri := "q", resolvedUri := none, attributes := some { BANDWIDTH := none },
    excludeUntil := none, endList := false, targetDuration := none,
    mediaSequence := 0, segments := none }

/-- C9 counterexample: for bandwidths [500k (excluded until 2000, now =
1000), 800k, 800k, 1200k] with one 800k active, `enabledPlaylists` is 3 as
claimed, but `isLowestEnabledRendition_` is FALSE — the two 800k entries
both satisfy `bandwidth <= 800k`, so the count is 2 > 1 (the claim asserts
true).  And with a known attributes object lacking `BANDWIDTH`, the
function returns TRUE (treating the bandwidth as 0), while the claim
asserts false whenever the bandwidth attribute is unknown. -/
theorem renditionSelector_counterexample :
    enabledPlaylists 1000 c9master = 3 ∧
    isLowestEnabledRendition 1000 c9master (some c9active) = false ∧
    isLowestEnabledRendition 1000 { uri := none, playlists := [c9nobw] } (some c9nobw)
      = true := by
  refine ⟨?_, ?_, ?_⟩
  · decide
  · decide
  · decide

/-- C9 (amended): `isLowestEnabledRendition_` is false when the active
playlist or its `attributes` OBJECT is unknown (a present attributes object
with a missing bandwidth is treated as active bandwidth 0); otherwise it is
true iff at most one eligible rendition (`excludeUntil` absent or ≤ now;
bandwidth 0 for a ref with no attributes object, never counted for a ref
whose attributes lack `BANDWIDTH`) has bandwidth ≤ the active bandwidth,
ties counting as not lower. -/
theorem isLowestEnabledRendition_iff (now : Int) (master : MasterPlaylist)
    (media : Option MediaPlaylist) :
    isLowestEnabledRendition now master media = true ↔
      ∃ m attrs, media = some m ∧ m.attributes = some attrs ∧
        (master.playlists.filter (fun p =>
          (match p.excludeUntil with
           | none => true
           | some v => decide (v ≤ now)) &&
          jsLE (match p.attributes with
                | some a => a.BANDWIDTH
                | none => some 0) (jsOr attrs.BANDWIDTH 0))).length ≤ 1 := by
  cases media with
  | none => simp [isLowestEnabledRendition]
  | some m =>
    cases hA : m.attributes with
    | none => simp [isLowestEnabledRendition, hA]
    | some attrs =>
      unfold isLowestEnabledRendition
      simp only [hA]
      have hfilt :
          master.playlists.filter (fun p =>
            let enabled : Bool :=
              match p.excludeUntil with
              | none => true
              | some v => decide (v ≤ now)
            if !enabled then false
            else jsLE (match p.attributes with
                       | some a => a.BANDWIDTH
                       | none => some 0) (jsOr attrs.BANDWIDTH 0)) =
          master.playlists.filter (fun p =>
            (match p.excludeUntil with
             | none => true
             | some v => decide (v ≤ now)) &&
            jsLE (match p.attributes with
                  | some a => a.BANDWIDTH
                  | none => some 0) (jsOr attrs.BANDWIDTH 0)) := by
        refine List.filter_congr ?_
        intro p _
        cases hx : (match p.excludeUntil with
                    | none => true
                    | some v => decide (v ≤ now) : Bool) <;> simp [hx]
      rw [hfilt]
      constructor
      · intro h
        refine ⟨m, attrs, rfl, hA, ?_⟩
        simpa using h
      · rintro ⟨m', attrs', hm', hA', hlen⟩
        obtain rfl : m' = m := by
          injection hm' with h
          exact h.symm
        rw [hA] at hA'
        obtain rfl : attrs' = attrs := by
          injection hA' with h
          exact h.symm
        simpa using hlen

end M3U8

namespace M3U8

/-! ## Supporting results for the intended (typo-fixed) media-response
handler, documenting the refresh-delay policy the dead code after line 161
implements. -/

/-- On a no-op refresh the intended handler halves the freshly computed
delay (`(targetDuration || 10) * 1000 / 2`) and arms the timer with it iff
the active playlist's `endList` is false; the timer is never armed once
`endList` is true. -/
theorem haveMetadataIntended_noop (resolve : Option String → Option String → String)
    (ld : Loader) (xhr : Xhr) (url : String) (manifest : MediaUpdate)
    (master : MasterPlaylist) (active : MediaPlaylist)
    (hM : ld.master = some master) (hmed : ld.media = some active)
    (hupd : updateMaster resolve master { manifest with uri := url } = some none) :
    (active.endList = false →
      haveMetadataIntended resolve ld xhr url manifest =
        some { ld with bandwidth := xhr.bandwidth, state := LState.HAVE_METADATA,
                       refreshDelay := some (jsOr manifest.targetDuration 10 * 1000 / 2),
                       targetDuration := manifest.targetDuration,
                       mediaUpdateTimeout := some (jsOr manifest.targetDuration 10 * 1000 / 2) }) ∧
    (active.endList = true →
      haveMetadataIntended resolve ld xhr url manifest =
        some { ld with bandwidth := xhr.bandwidth, state := LState.HAVE_METADATA,
                       refreshDelay := some (jsOr manifest.targetDuration 10 * 1000 / 2),
                       targetDuration := manifest.targetDuration }) := by
  constructor
  · intro hE
    unfold haveMetadataIntended
    simp [hM, hupd, hmed, hE, Option.bind]
  · intro hE
    unfold haveMetadataIntended
    simp [hM, hupd, hmed, hE, Option.bind]

/-- On a material refresh the intended handler computes the full delay
`(targetDuration || 10) * 1000`, adopts the merged master, re-runs the
live window tracker, and arms the timer with the (unhalved) delay iff the
then-active playlist's `endList` is false. -/
theorem haveMetadataIntended_material (resolve : Option String → Option String → String)
    (ld : Loader) (xhr : Xhr) (url : String) (manifest : MediaUpdate)
    (master m' : MasterPlaylist) (ld3 : Loader) (active : MediaPlaylist)
    (hM : ld.master = some master)
    (hupd : updateMaster resolve master { manifest with uri := url } = some (some m'))
    (hmp : updateMediaPlaylist
      { ld with bandwidth := xhr.bandwidth, state := LState.HAVE_METADATA,
                refreshDelay := some (jsOr manifest.targetDuration 10 * 1000),
                targetDuration := manifest.targetDuration, master := some m' }
      { manifest with uri := url } = some ld3)
    (hact : ld3.media = some active) :
    (active.endList = false →
      haveMetadataIntended resolve ld xhr url manifest =
        some { ld3 with mediaUpdateTimeout := ld3.refreshDelay }) ∧
    (active.endList = true →
      haveMetadataIntended resolve ld xhr url manifest = some ld3) := by
  constructor
  · intro hE
    unfold haveMetadataIntended
    simp [hM, hupd, hmp, hact, hE, Option.bind]
  · intro hE
    unfold haveMetadataIntended
    simp [hM, hupd, hmp, hact, hE, Option.bind]

end M3U8
